import Mathlib

/-
Verification development for the AI document-processing pipeline
(src/app/actions.ts, src/app/api/upload/route.ts).

The embedding models JavaScript runtime values (`JsVal`), the JSON.parse
semantics used by the response parser, the per-file processing action, the
batch orchestrator, the upload receiver and the temp-storage cleanup pass.
External collaborators (filesystem reads, the PDF/Word extraction libraries,
the language-model API, uuid generation, wall-clock time) are supplied as
oracle fields of an environment record.  JSON numbers are modelled as exact
rationals.  Temp storage is an association list of (relative path, mtime).
-/

/-- Whitespace class of the JavaScript regex character class backslash-s,
restricted to the common code points that can occur in document text. -/
def jsWs (c : Char) : Bool :=
  c == ' ' || c == '\t' || c == '\n' || c == '\r' || c == '\x0B' || c == '\x0C'

/-- Drop leading and trailing JS whitespace: model of String.prototype.trim. -/
def trimJs (l : List Char) : List Char :=
  ((l.dropWhile jsWs).reverse.dropWhile jsWs).reverse

/-- Check that the first list is an initial segment of the second. -/
def leadsWith : List Char → List Char → Bool
  | [], _ => true
  | _ :: _, [] => false
  | p :: ps, c :: cs => p == c && leadsWith ps cs

/-- Check that the first list occurs contiguously inside the second. -/
def containsSub (pat : List Char) : List Char → Bool
  | [] => leadsWith pat []
  | c :: rest => leadsWith pat (c :: rest) || containsSub pat rest

/-- Fuel-bounded worker for removeOcc; the fuel passed always suffices since
every step consumes at least one character. -/
def removeOccF (pat : List Char) : Nat → List Char → List Char
  | 0, l => l
  | _ + 1, [] => []
  | fuel + 1, c :: rest =>
    if leadsWith pat (c :: rest) && !pat.isEmpty then
      removeOccF pat fuel (rest.drop (pat.length - 1))
    else c :: removeOccF pat fuel rest

/-- Remove every occurrence of a pattern, scanning left to right: model of
String.prototype.replace with a global literal regex and empty replacement. -/
def removeOcc (pat l : List Char) : List Char := removeOccF pat l.length l

/-- JavaScript runtime values that the pipeline can observe after JSON
parsing and property access.  Numbers are modelled as exact rationals. -/
inductive JsVal where
  | undef : JsVal
  | null : JsVal
  | bool : Bool → JsVal
  | num : ℚ → JsVal
  | str : String → JsVal
  | arr : List JsVal → JsVal
  | obj : List (String × JsVal) → JsVal

/-- JSON insignificant whitespace. -/
def jsonWsChar (c : Char) : Bool :=
  c == ' ' || c == '\t' || c == '\n' || c == '\r'

/-- Skip JSON insignificant whitespace. -/
def skipWs (l : List Char) : List Char := l.dropWhile jsonWsChar

/-- Value of a hexadecimal digit. -/
def hexVal (c : Char) : Option Nat :=
  if c.isDigit then some (c.toNat - 48)
  else if 'a' ≤ c && c ≤ 'f' then some (c.toNat - 87)
  else if 'A' ≤ c && c ≤ 'F' then some (c.toNat - 55)
  else none

/-- Translation of a JSON single-character escape. -/
def escChar (c : Char) : Option Char :=
  if c == '\"' then some '\"'
  else if c == '\\' then some '\\'
  else if c == '/' then some '/'
  else if c == 'b' then some (Char.ofNat 8)
  else if c == 'f' then some (Char.ofNat 12)
  else if c == 'n' then some '\n'
  else if c == 'r' then some '\r'
  else if c == 't' then some '\t'
  else none

/-- Parse the body of a JSON string literal after the opening quote,
returning the decoded characters and the input after the closing quote. -/
def parseStrBody : List Char → Except String (List Char × List Char)
  | [] => .error ("unterminated string")
  | '\"' :: rest => .ok ([], rest)
  | '\\' :: 'u' :: a :: b :: c :: d :: rest =>
    match hexVal a, hexVal b, hexVal c, hexVal d with
    | some ha, some hb, some hc, some hd =>
      match parseStrBody rest with
      | .ok (cs, rem) =>
        .ok (Char.ofNat (((ha * 16 + hb) * 16 + hc) * 16 + hd) :: cs, rem)
      | .error m => .error m
    | _, _, _, _ => .error ("bad unicode escape")
  | '\\' :: e :: rest =>
    match escChar e with
    | some ec =>
      match parseStrBody rest with
      | .ok (cs, rem) => .ok (ec :: cs, rem)
      | .error m => .error m
    | none => .error ("bad escape")
  | c :: rest =>
    if c.toNat < 32 then .error ("control character in string")
    else
      match parseStrBody rest with
      | .ok (cs, rem) => .ok (c :: cs, rem)
      | .error m => .error m

/-- Accumulate decimal digits into a natural number. -/
def digitsToNat : List Char → Nat → Nat
  | [], acc => acc
  | c :: r, acc => digitsToNat r (acc * 10 + (c.toNat - 48))

/-- Parse an optional JSON exponent part with its sign. -/
def expParseSigned (l : List Char) : Except String (ℤ × List Char) :=
  let sl : ℤ × List Char :=
    match l with
    | '+' :: r => (1, r)
    | '-' :: r => (-1, r)
    | _ => (1, l)
  let ds := sl.2.takeWhile Char.isDigit
  if ds.isEmpty then .error ("invalid exponent")
  else .ok (sl.1 * (digitsToNat ds 0 : ℤ), sl.2.dropWhile Char.isDigit)

/-- Parse the exponent marker of a JSON number, if present. -/
def expParse (l : List Char) : Except String (ℤ × List Char) :=
  match l with
  | 'e' :: r => expParseSigned r
  | 'E' :: r => expParseSigned r
  | _ => .ok (0, l)

/-- Parse a JSON number into an exact rational. -/
def parseNumber (l : List Char) : Except String (ℚ × List Char) :=
  let sl : Bool × List Char :=
    match l with
    | '-' :: r => (true, r)
    | _ => (false, l)
  let intDigits := sl.2.takeWhile Char.isDigit
  let rest1 := sl.2.dropWhile Char.isDigit
  if intDigits.isEmpty then .error ("invalid number")
  else if intDigits.length > 1 && intDigits.headI == '0' then
    .error ("leading zero")
  else
    let fr : List Char × List Char :=
      match rest1 with
      | '.' :: r => (r.takeWhile Char.isDigit, r.dropWhile Char.isDigit)
      | _ => ([], rest1)
    if (match rest1 with | '.' :: _ => fr.1.isEmpty | _ => false) then
      .error ("missing fraction digits")
    else
      match expParse fr.2 with
      | .error m => .error m
      | .ok (e, rest3) =>
        let fracLen := fr.1.length
        let m : ℕ := digitsToNat intDigits 0 * 10 ^ fracLen + digitsToNat fr.1 0
        let mi : ℤ := if sl.1 then -(m : ℤ) else (m : ℤ)
        let v : ℚ :=
          if 0 ≤ e then mkRat (mi * (10 : ℤ) ^ e.toNat) (10 ^ fracLen)
          else mkRat mi (10 ^ fracLen * 10 ^ (-e).toNat)
        .ok (v, rest3)

mutual

/-- Parse one JSON value, fuel-bounded: model of the recursive descent done
by JSON.parse.  The fuel passed by jsonParse always suffices for its input. -/
def parseValue : Nat → List Char → Except String (JsVal × List Char)
  | 0, _ => .error ("fuel exhausted")
  | Nat.succ fuel, l =>
    match skipWs l with
    | [] => .error ("unexpected end of input")
    | c :: rest =>
      if c == '{' then
        match skipWs rest with
        | '}' :: rem => .ok (JsVal.obj [], rem)
        | l2 =>
          match parseMembers fuel l2 with
          | .error m => .error m
          | .ok (ms, rem) => .ok (JsVal.obj ms, rem)
      else if c == '[' then
        match skipWs rest with
        | ']' :: rem => .ok (JsVal.arr [], rem)
        | l2 =>
          match parseElems fuel l2 with
          | .error m => .error m
          | .ok (vs, rem) => .ok (JsVal.arr vs, rem)
      else if c == '\"' then
        match parseStrBody rest with
        | .ok (cs, rem) => .ok (JsVal.str (String.mk cs), rem)
        | .error m => .error m
      else if leadsWith (("true").toList) (c :: rest) then
        .ok (JsVal.bool true, (c :: rest).drop 4)
      else if leadsWith (("false").toList) (c :: rest) then
        .ok (JsVal.bool false, (c :: rest).drop 5)
      else if leadsWith (("null").toList) (c :: rest) then
        .ok (JsVal.null, (c :: rest).drop 4)
      else if c == '-' || c.isDigit then
        match parseNumber (c :: rest) with
        | .error m => .error m
        | .ok (q, rem) => .ok (JsVal.num q, rem)
      else .error ("unexpected token")

/-- Parse the members of a non-empty JSON object up to the closing brace. -/
def parseMembers : Nat → List Char → Except String (List (String × JsVal) × List Char)
  | 0, _ => .error ("fuel exhausted")
  | Nat.succ fuel, l =>
    match skipWs l with
    | '\"' :: rest =>
      match parseStrBody rest with
      | .error m => .error m
      | .ok (key, rem) =>
        match skipWs rem with
        | ':' :: rem2 =>
          match parseValue fuel rem2 with
          | .error m => .error m
          | .ok (v, rem3) =>
            match skipWs rem3 with
            | ',' :: rem4 =>
              match parseMembers fuel rem4 with
              | .error m => .error m
              | .ok (ms, rem5) => .ok ((String.mk key, v) :: ms, rem5)
            | '}' :: rem4 => .ok ([(String.mk key, v)], rem4)
            | _ => .error ("expected comma or closing brace")
        | _ => .error ("expected colon")
    | _ => .error ("expected string key")

/-- Parse the elements of a non-empty JSON array up to the closing bracket. -/
def parseElems : Nat → List Char → Except String (List JsVal × List Char)
  | 0, _ => .error ("fuel exhausted")
  | Nat.succ fuel, l =>
    match parseValue fuel l with
    | .error m => .error m
    | .ok (v, rem) =>
      match skipWs rem with
      | ',' :: rem2 =>
        match parseElems fuel rem2 with
        | .error m => .error m
        | .ok (vs, rem3) => .ok (v :: vs, rem3)
      | ']' :: rem2 => .ok ([v], rem2)
      | _ => .error ("expected comma or closing bracket")

end

/-- Model of JSON.parse: parse one value and reject trailing characters. -/
def jsonParse (l : List Char) : Except String JsVal :=
  match parseValue (2 * l.length + 4) l with
  | .error m => .error m
  | .ok (v, rem) =>
    if (skipWs rem).isEmpty then .ok v
    else .error ("unexpected trailing characters")

/-- Strip code-fence markers and trim: model of lines 116-119 of actions.ts,
which delete every occurrence of the literal backtick fences and trim. -/
def cleanResponse (s : String) : List Char :=
  trimJs (removeOcc (("```").toList) (removeOcc (("```json").toList) s.toList))

/-- Model of cleanedResponse.match with the greedy brace regex: the match, if
any, spans from the first opening brace to the last closing brace. -/
def braceMatch (l : List Char) : Option (List Char) :=
  match l.dropWhile (fun c => !(c == '{')) with
  | [] => none
  | c :: rest =>
    match (c :: rest).reverse.dropWhile (fun c => !(c == '}')) with
    | [] => none
    | d :: rev => some ((d :: rev).reverse)

/-- Candidate JSON text chosen by the code, then parsed: the brace-regex match
when present, otherwise the whole cleaned string (lines 123-128). -/
def candidateParse (l : List Char) : Except String JsVal :=
  match braceMatch l with
  | some m => jsonParse m
  | none => jsonParse l

/-- Fixed fallback analysis substituted when JSON parsing throws
(lines 134-141 of actions.ts). -/
def fallbackAnalysis : JsVal :=
  JsVal.obj
    [(("sentiment"), JsVal.str ("Analysis completed")),
     (("topics"), JsVal.arr [JsVal.str ("Document analysis")]),
     (("summary"), JsVal.str ("Document processed successfully")),
     (("entities"), JsVal.arr []),
     (("keyInsights"), JsVal.arr [JsVal.str ("Document contains valuable content")]),
     (("confidence"), JsVal.num (mkRat 7 10))]

/-- Full parse of a model reply into the analysis value: clean, pick the
candidate substring, parse, and fall back to the fixed record on any throw. -/
def parseAnalysis (reply : String) : JsVal :=
  match candidateParse (cleanResponse reply) with
  | .ok v => v
  | .error _ => fallbackAnalysis

/-- First value for a repeated key, used on the reversed field list so that a
later duplicate key wins, as in a JavaScript object built by JSON.parse. -/
def lookupFirst : List (String × JsVal) → String → JsVal
  | [], _ => JsVal.undef
  | (k, v) :: rest, name => if k == name then v else lookupFirst rest name

/-- JavaScript property access on a runtime value: objects yield the field or
undefined, null and undefined throw a TypeError, primitives yield undefined. -/
def jsGet (v : JsVal) (name : String) : Except String JsVal :=
  match v with
  | JsVal.obj fs => .ok (lookupFirst fs.reverse name)
  | JsVal.null => .error ("Cannot read properties of null (reading " ++ name ++ ")")
  | JsVal.undef => .error ("Cannot read properties of undefined (reading " ++ name ++ ")")
  | _ => .ok JsVal.undef

/-- JavaScript truthiness of a runtime value. -/
def jsTruthy (v : JsVal) : Bool :=
  match v with
  | JsVal.undef => false
  | JsVal.null => false
  | JsVal.bool b => b
  | JsVal.num q => !(q.num == 0)
  | JsVal.str s => !(s == "")
  | JsVal.arr _ => true
  | JsVal.obj _ => true

/-- JavaScript logical-or defaulting. -/
def jsOr (a b : JsVal) : JsVal := if jsTruthy a then a else b

/-- Array.isArray coercion used for the list-valued fields: the raw array
elements when the value is an array, the empty list otherwise. -/
def asArray (v : JsVal) : List JsVal :=
  match v with
  | JsVal.arr xs => xs
  | _ => []

/-- Read the six analysis fields in the order the result literal evaluates
them (lines 155-163); the first access on null or undefined throws. -/
def getFields (analysis : JsVal) :
    Except String (JsVal × JsVal × JsVal × JsVal × JsVal × JsVal) :=
  match jsGet analysis ("sentiment") with
  | .error m => .error m
  | .ok s =>
    match jsGet analysis ("topics") with
    | .error m => .error m
    | .ok tp =>
      match jsGet analysis ("summary") with
      | .error m => .error m
      | .ok sm =>
        match jsGet analysis ("entities") with
        | .error m => .error m
        | .ok en =>
          match jsGet analysis ("keyInsights") with
          | .error m => .error m
          | .ok ki =>
            match jsGet analysis ("confidence") with
            | .error m => .error m
            | .ok cf => .ok (s, tp, sm, en, ki, cf)

/-- Tokens produced by String.prototype.split on the whitespace regex: JS
split keeps an empty piece before a leading separator run and after a
trailing one, and collapses each maximal whitespace run to one boundary. -/
def splitWsAux : List Char → List Char → List (List Char)
  | [], acc => [acc.reverse]
  | c :: rest, acc =>
    if jsWs c then
      match rest with
      | [] => [acc.reverse, []]
      | d :: _ =>
        if jsWs d then splitWsAux rest acc
        else acc.reverse :: splitWsAux rest []
    else splitWsAux rest (c :: acc)

/-- Word count of line 145: split on whitespace, filter(Boolean), length. -/
def wordCountJs (l : List Char) : Nat :=
  ((splitWsAux l []).filter (fun t => !t.isEmpty)).length

/-- Page estimate of lines 222-226: the same word count, divided by 250 and
rounded up (Math.ceil). -/
def estimatePageCount (l : List Char) : Nat :=
  (wordCountJs l + 249) / 250

/-- Uploaded-file descriptor handed to the processing actions. -/
structure FileData where
  id : String
  fileName : String
  filePath : String
  type : String

/-- Result record assembled per document.  The sentiment, summary and
confidence fields hold raw JavaScript values, since the code stores whatever
the parsed reply contained; pageCount is absent from error records. -/
structure DocumentAnalysis where
  id : String
  fileName : String
  fileType : String
  processingTime : Int
  textContent : List Char
  wordCount : Nat
  pageCount : Option Nat
  sentiment : JsVal
  topics : List JsVal
  summary : JsVal
  entities : List JsVal
  keyInsights : List JsVal
  analyzedAt : Int
  confidence : JsVal

/-- Temp storage: relative path and modification time of each stored file. -/
abbrev Storage := List (String × Int)

/-- Environment of external collaborators for the processing actions:
filesystem reads combined with the format libraries, the language-model
call, injected unlink failures, and observed wall-clock values. -/
structure Env where
  readPdf : String → Except String String
  readDocx : String → Except String String
  readTxt : String → Except String String
  modelReply : String → Except String String
  unlinkFails : String → Bool
  procTime : Int
  now : Int

/-- Model of fs.unlink on temp storage: fails when the entry is absent or
when the environment injects a failure, otherwise removes the entry. -/
def fsUnlink (env : Env) (st : Storage) (p : String) : Except String Storage :=
  if st.any (fun e => e.1 == p) then
    if env.unlinkFails p then .error ("unlink failed")
    else .ok (st.filter (fun e => !(e.1 == p)))
  else .error ("ENOENT")

/-- Helper of lines 46-55: attempt the unlink and swallow any failure, so the
call always returns and never disturbs the surrounding control flow. -/
def deleteUploadedFile (env : Env) (st : Storage) (p : String) : Storage :=
  match fsUnlink env st p with
  | .ok st2 => st2
  | .error _ => st

/-- Dispatch of lines 191-215: the supported types delegate to the format
oracles, any other declared type throws an error naming the type. -/
def extractInner (env : Env) (filePath fileType : String) : Except String String :=
  if fileType == "application/pdf" then env.readPdf filePath
  else if fileType == "application/vnd.openxmlformats-officedocument.wordprocessingml.document"
      || fileType == "application/msword" then env.readDocx filePath
  else if fileType == "text/plain" then env.readTxt filePath
  else .error ("Unsupported file type: " ++ fileType)

/-- Text extractor of lines 184-220: the surrounding catch replaces every
failure, including the unsupported-type throw, by one generic message. -/
def extractTextFromFile (env : Env) (filePath fileType : String) : Except String String :=
  match extractInner env filePath fileType with
  | .ok t => .ok t
  | .error _ => .error ("Failed to extract text from document")

/-- Assemble the success record of lines 147-164 from the parsed reply. -/
def buildResult (env : Env) (fd : FileData) (textContent : List Char)
    (reply : String) : Except String DocumentAnalysis :=
  match getFields (parseAnalysis reply) with
  | .error m => .error m
  | .ok (s, tp, sm, en, ki, cf) =>
    .ok { id := fd.id
          fileName := fd.fileName
          fileType := fd.type
          processingTime := env.procTime
          textContent := textContent.take 1000
          wordCount := wordCountJs textContent
          pageCount := some (estimatePageCount textContent)
          sentiment := s
          topics := asArray tp
          summary := jsOr sm (JsVal.str ("No summary available"))
          entities := asArray en
          keyInsights := asArray ki
          analyzedAt := env.now
          confidence := jsOr cf (JsVal.num (mkRat 7 10)) }

/-- Per-file action of lines 79-182: extract, reject empty text, call the
model, build the record; on any failure rethrow with the wrapper prefix; on
every path attempt to delete the uploaded file, swallowing unlink failures. -/
def processDocumentAction (env : Env) (st : Storage) (fd : FileData) :
    Except String DocumentAnalysis × Storage :=
  match extractTextFromFile env fd.filePath fd.type with
  | .error e =>
    (.error ("Failed to process document: " ++ e), deleteUploadedFile env st fd.filePath)
  | .ok textContent =>
    if (trimJs textContent.toList).isEmpty then
      (.error ("Failed to process document: No text content found in document"),
       deleteUploadedFile env st fd.filePath)
    else
      match env.modelReply textContent with
      | .error e =>
        (.error ("Failed to process document: " ++ e), deleteUploadedFile env st fd.filePath)
      | .ok reply =>
        match buildResult env fd textContent.toList reply with
        | .error e =>
          (.error ("Failed to process document: " ++ e), deleteUploadedFile env st fd.filePath)
        | .ok r => (.ok r, deleteUploadedFile env st fd.filePath)

/-- Synthesized error record of lines 249-265. -/
def mkErrorRecord (env : Env) (fd : FileData) (e : String) : DocumentAnalysis :=
  { id := fd.id
    fileName := fd.fileName
    fileType := fd.type
    processingTime := 0
    textContent := []
    wordCount := 0
    pageCount := none
    sentiment := JsVal.str ("Error")
    topics := []
    summary := JsVal.str ("Processing failed: " ++ e)
    entities := []
    keyInsights := []
    analyzedAt := env.now
    confidence := JsVal.num 0 }

/-- Batch orchestrator of lines 228-270: sequential loop, per-file catch that
deletes the file again and appends a synthesized error record. -/
def processBatchDocuments (env : Env) : Storage → List FileData →
    List DocumentAnalysis × Storage
  | st, [] => ([], st)
  | st, fd :: rest =>
    match processDocumentAction env st fd with
    | (Except.ok a, st1) =>
      let pr := processBatchDocuments env st1 rest
      (a :: pr.1, pr.2)
    | (Except.error e, st1) =>
      let st2 := deleteUploadedFile env st1 fd.filePath
      let pr := processBatchDocuments env st2 rest
      (mkErrorRecord env fd e :: pr.1, pr.2)

/-- One file of the multipart request body, as the upload route sees it. -/
structure UploadFile where
  name : String
  size : Nat
  type : String

/-- Per-file outcome pushed into uploadResults (upload/route.ts). -/
inductive UploadResult where
  | failure (fileName : String) (error : String) : UploadResult
  | success (id : String) (fileName : String) (originalName : String)
      (size : Nat) (type : String) (filePath : String) (uploadedAt : String) :
      UploadResult

/-- Overall JSON response of the upload route. -/
inductive UploadResponse where
  | jsonError (error : String) (status : Nat) : UploadResponse
  | jsonSuccess (files : List UploadResult) : UploadResponse

/-- Environment of the upload route: uuid generation, success of the i-th
writeFile, and the timestamp string, all external to the validation logic. -/
structure UploadEnv where
  uuid : Nat → String
  writeOk : Nat → Bool
  nowIso : String

/-- Allowed MIME types of upload/route.ts lines 44-49. -/
def allowedTypes : List String :=
  [("application/pdf"),
   ("application/vnd.openxmlformats-officedocument.wordprocessingml.document"),
   ("application/msword"),
   ("text/plain")]

/-- Default maximum upload size in bytes (upload/route.ts lines 9-11). -/
def MAX_FILE_SIZE : Nat := 10485760

/-- Model of Node path.extname restricted to a bare file name: the suffix
from the last dot, empty when there is no dot, the dot leads the name, or
the name is all dots. -/
def extname (l : List Char) : List Char :=
  if l.all (fun c => c == '.') then []
  else
    match l.reverse.dropWhile (fun c => !(c == '.')) with
    | [] => []
    | _ :: [] => []
    | _ :: _ :: _ => '.' :: (l.reverse.takeWhile (fun c => !(c == '.'))).reverse

/-- Body of the per-file loop of upload/route.ts lines 32-89: size check,
then type check, then persist; a failed write yields a per-file failure. -/
def processUpload (env : UploadEnv) (maxSize : Nat) (i : Nat) (f : UploadFile) :
    UploadResult :=
  if f.size > maxSize then
    UploadResult.failure f.name ("File size exceeds limit (10MB)")
  else if !(allowedTypes.contains f.type) then
    UploadResult.failure f.name ("Unsupported file type")
  else if env.writeOk i then
    UploadResult.success (env.uuid i) f.name f.name f.size f.type
      (env.uuid i ++ String.mk (extname f.name.toList)) env.nowIso
  else UploadResult.failure f.name ("Failed to save file")

/-- The sequential for-loop over the uploaded files, indexed from zero. -/
def uploadLoop (env : UploadEnv) (maxSize : Nat) : Nat → List UploadFile →
    List UploadResult
  | _, [] => []
  | i, f :: fs => processUpload env maxSize i f :: uploadLoop env maxSize (i + 1) fs

/-- Upload handler of upload/route.ts lines 13-99.  The argument carries the
outcome of reading and preparing the request (formData parse and directory
setup, the operations outside the per-file scope); a failure there reaches
the outer catch and produces the 500 response. -/
def POST (env : UploadEnv) (maxSize : Nat)
    (formData : Except String (List UploadFile)) : UploadResponse :=
  match formData with
  | .error _ => UploadResponse.jsonError ("Upload failed") 500
  | .ok files =>
    if files.length == 0 then UploadResponse.jsonError ("No files uploaded") 400
    else UploadResponse.jsonSuccess (uploadLoop env maxSize 0 files)

/-- Age test of actions.ts line 69: a stored file is stale when its mtime is
before one hour ago. -/
def entryIsOld (now : Int) (e : String × Int) : Bool :=
  e.2 < now - 3600000

/-- Sweep loop of actions.ts lines 63-73 over the directory listing taken at
entry; an unlink failure aborts the rest of the loop, carrying the storage
reached so far into the surrounding catch. -/
def sweepLoop (uf : String → Bool) (now : Int) :
    List (String × Int) → Storage → Except Storage Storage
  | [], st => .ok st
  | e :: rest, st =>
    if entryIsOld now e then
      if uf e.1 then .error st
      else sweepLoop uf now rest (st.filter (fun d => !(d.1 == e.1)))
    else sweepLoop uf now rest st

/-- Cleanup pass of actions.ts lines 58-77: sweep the listing of the current
storage and swallow any failure, so the caller always gets a storage back. -/
def cleanupUploadsFolder (uf : String → Bool) (now : Int) (st : Storage) : Storage :=
  match sweepLoop uf now st st with
  | .ok st2 => st2
  | .error st2 => st2

/-- Tokens of a text in the sense of the specification: split the text at
every whitespace character and keep the non-empty pieces. -/
def wsSplit : List Char → List (List Char)
  | [] => [[]]
  | c :: r =>
    match wsSplit r with
    | [] => [[c]]
    | t :: ts => if jsWs c then [] :: t :: ts else (c :: t) :: ts

/-- Non-empty whitespace-delimited tokens of a text. -/
def wsTokens (l : List Char) : List (List Char) :=
  (wsSplit l).filter (fun t => !t.isEmpty)

/-- First balanced-brace substring of a text, as the specification words
describe the parser: from the first opening brace to its matching close. -/
def scanBal : List Char → Nat → List Char → Option (List Char)
  | [], _, _ => none
  | c :: rest, depth, acc =>
    if c == '{' then scanBal rest (depth + 1) (c :: acc)
    else if c == '}' then
      if depth ≤ 1 then some ((c :: acc).reverse)
      else scanBal rest (depth - 1) (c :: acc)
    else scanBal rest depth (c :: acc)

/-- Locate the first balanced-brace substring, if any. -/
def firstBalanced (l : List Char) : Option (List Char) :=
  scanBal (l.dropWhile (fun c => !(c == '{'))) 0 []

/-- Candidate parse as the specification sentence describes it: parse the
first balanced-brace substring, else the whole cleaned string. -/
def specCandidateParse (l : List Char) : Except String JsVal :=
  match firstBalanced l with
  | some m => jsonParse m
  | none => jsonParse l

/-- Truth of an Except being a success, for stating parse outcomes. -/
def exceptIsOk (e : Except String JsVal) : Bool :=
  match e with
  | .ok _ => true
  | .error _ => false

/-- Whether the cleaned text parses to a JSON object under the code's
candidate choice. -/
def parsesToObject (l : List Char) : Bool :=
  match candidateParse l with
  | .ok (JsVal.obj _) => true
  | _ => false

/-- Whether an upload outcome is a per-file failure record. -/
def resultIsFailure (r : UploadResult) : Bool :=
  match r with
  | UploadResult.failure _ _ => true
  | _ => false

theorem buildResult_ok_fields (env : Env) (fd : FileData) (tc : List Char)
    (reply : String) (a : DocumentAnalysis)
    (h : buildResult env fd tc reply = Except.ok a) :
    a.id = fd.id ∧ a.fileName = fd.fileName ∧ a.fileType = fd.type
      ∧ a.wordCount = wordCountJs tc ∧ a.pageCount = some (estimatePageCount tc) := by
  rcases hg : getFields (parseAnalysis reply) with m | ⟨s, tp, sm, en, ki, cf⟩
  · simp [buildResult, hg] at h
  · simp only [buildResult, hg] at h
    injection h with h2
    subst h2
    exact ⟨rfl, rfl, rfl, rfl, rfl⟩

theorem pda_ok_record (env : Env) (st : Storage) (fd : FileData) (a : DocumentAnalysis)
    (h : (processDocumentAction env st fd).1 = Except.ok a) :
    ∃ t reply, extractTextFromFile env fd.filePath fd.type = Except.ok t
      ∧ env.modelReply t = Except.ok reply
      ∧ buildResult env fd t.toList reply = Except.ok a := by
  unfold processDocumentAction at h
  split at h
  · simp at h
  · rename_i t hx
    split at h
    · simp at h
    · split at h
      · simp at h
      · rename_i reply hm
        split at h
        · simp at h
        · rename_i r hb
          simp at h
          exact ⟨t, reply, hx, hm, by rw [hb, h]⟩

theorem pda_ok_fields (env : Env) (st : Storage) (fd : FileData) (a : DocumentAnalysis)
    (h : (processDocumentAction env st fd).1 = Except.ok a) :
    a.id = fd.id ∧ a.fileName = fd.fileName ∧ a.fileType = fd.type := by
  obtain ⟨t, reply, _, _, hb⟩ := pda_ok_record env st fd a h
  obtain ⟨h1, h2, h3, _, _⟩ := buildResult_ok_fields env fd t.toList reply a hb
  exact ⟨h1, h2, h3⟩

theorem batch_length (env : Env) : ∀ (fs : List FileData) (st : Storage),
    ((processBatchDocuments env st fs).1).length = fs.length := by
  intro fs
  induction fs with
  | nil => intro st; rfl
  | cons fd rest ih =>
    intro st
    simp only [processBatchDocuments]
    rcases hp : processDocumentAction env st fd with ⟨r, st1⟩
    cases r with
    | error e => simp [ih]
    | ok a => simp [ih]

/-- C1: every batch of N descriptors yields exactly N DocumentAnalysis
records, and the i-th record carries the id, fileName and fileType of the
i-th input, however many files fail during extraction or analysis. -/
theorem batch_returns_one_record_per_input (env : Env) (files : List FileData)
    (st : Storage) :
    ((processBatchDocuments env st files).1).map (fun a => (a.id, a.fileName, a.fileType))
      = files.map (fun f => (f.id, f.fileName, f.type)) := by
  induction files generalizing st with
  | nil => rfl
  | cons fd rest ih =>
    simp only [processBatchDocuments]
    rcases hp : processDocumentAction env st fd with ⟨r, st1⟩
    cases r with
    | error e => simp [mkErrorRecord, ih]
    | ok a =>
      obtain ⟨h1, h2, h3⟩ := pda_ok_fields env st fd a (by rw [hp])
      simp [h1, h2, h3, ih]

theorem pda_snd (env : Env) (st : Storage) (fd : FileData) :
    (processDocumentAction env st fd).2 = deleteUploadedFile env st fd.filePath := by
  unfold processDocumentAction
  split
  · rfl
  · split
    · rfl
    · split
      · rfl
      · split
        · rfl
        · rfl

theorem pda_fst_unlink_invariant (env : Env) (g : String → Bool) (st : Storage)
    (fd : FileData) :
    (processDocumentAction { env with unlinkFails := g } st fd).1
      = (processDocumentAction env st fd).1 := by
  have hex : extractTextFromFile { env with unlinkFails := g } fd.filePath fd.type
      = extractTextFromFile env fd.filePath fd.type := rfl
  have hmr : ∀ t, ({ env with unlinkFails := g } : Env).modelReply t = env.modelReply t :=
    fun _ => rfl
  have hbr : ∀ tc r, buildResult { env with unlinkFails := g } fd tc r
      = buildResult env fd tc r := fun _ _ => rfl
  unfold processDocumentAction
  rw [hex]
  rcases hx : extractTextFromFile env fd.filePath fd.type with e | t
  · rfl
  · simp only [hmr, hbr]
    split
    · rfl
    · split
      · rfl
      · split
        · rfl
        · rfl

/-- C6: on every per-file path, success or failure, the temp-storage entry
deletion is attempted exactly where the result is produced (the output
storage is the swallowing deleteUploadedFile applied to the input storage),
and injecting unlink failures never changes the returned result value. -/
theorem deletion_always_attempted_and_harmless (env : Env) (g : String → Bool)
    (st : Storage) (fd : FileData) :
    (processDocumentAction env st fd).2 = deleteUploadedFile env st fd.filePath
    ∧ (processDocumentAction { env with unlinkFails := g } st fd).1
        = (processDocumentAction env st fd).1 :=
  ⟨pda_snd env st fd, pda_fst_unlink_invariant env g st fd⟩

/-- C5: extracted text that is empty or whitespace-only makes the per-file
action fail with the empty-content error for every possible model oracle
(so before any model call), and the batch orchestrator turns that failure
into an error record with confidence 0, sentiment Error and a summary
containing the error text, then continues with the remaining files. -/
theorem empty_text_gives_error_record (env : Env) (st : Storage) (fd : FileData)
    (rest : List FileData) (t : String)
    (hx : extractTextFromFile env fd.filePath fd.type = Except.ok t)
    (ht : trimJs t.data = []) :
    (processDocumentAction env st fd).1
      = Except.error ("Failed to process document: No text content found in document")
    ∧ ∃ a tail,
        (processBatchDocuments env st (fd :: rest)).1 = a :: tail
        ∧ a.sentiment = JsVal.str ("Error")
        ∧ a.confidence = JsVal.num 0
        ∧ a.summary = JsVal.str
            ("Processing failed: Failed to process document: No text content found in document")
        ∧ containsSub (("No text content found in document").toList)
            (("Processing failed: Failed to process document: No text content found in document").toList)
            = true
        ∧ tail.length = rest.length := by
  have h1 : (processDocumentAction env st fd).1
      = Except.error ("Failed to process document: No text content found in document") := by
    unfold processDocumentAction
    rw [hx]
    simp [ht]
  have hpair : processDocumentAction env st fd
      = (Except.error ("Failed to process document: No text content found in document"),
         deleteUploadedFile env st fd.filePath) :=
    Prod.ext h1 (pda_snd env st fd)
  refine ⟨h1, mkErrorRecord env fd
      ("Failed to process document: No text content found in document"),
      (processBatchDocuments env
        (deleteUploadedFile env (deleteUploadedFile env st fd.filePath) fd.filePath) rest).1,
      ?_, rfl, rfl, ?_, by decide, batch_length env rest _⟩
  · simp only [processBatchDocuments, hpair]
  · show JsVal.str ("Processing failed: "
        ++ "Failed to process document: No text content found in document") = _
    exact congrArg JsVal.str (by decide)

def envC5w : Env :=
  { readPdf := fun _ => .error ("no pdf")
    readDocx := fun _ => .error ("no docx")
    readTxt := fun _ => .ok ("   ")
    modelReply := fun _ => .ok ("unused")
    unlinkFails := fun _ => false
    procTime := 0
    now := 0 }

def fdC5w : FileData :=
  { id := ("d1"), fileName := ("empty.txt"), filePath := ("e1"), type := ("text/plain") }

/-- Witness for C5 at a concrete whitespace-only file. -/
theorem empty_text_gives_error_record_witness :
    (processDocumentAction envC5w [] fdC5w).1
      = Except.error ("Failed to process document: No text content found in document") :=
  (empty_text_gives_error_record envC5w [] fdC5w [] ("   ") rfl (by decide)).1

/-- C2 (amended): when the JSON parse attempt on the chosen candidate text
throws (the brace-regex match when present, else the whole cleaned reply),
the per-file action still succeeds and returns exactly the fixed fallback
analysis: sentiment Analysis completed, one generic topic, generic summary,
no entities, one generic insight, confidence 0.7. -/
theorem unparseable_reply_yields_fallback (env : Env) (st : Storage) (fd : FileData)
    (t reply : String)
    (hx : extractTextFromFile env fd.filePath fd.type = Except.ok t)
    (ht : ¬ (trimJs t.toList = []))
    (hm : env.modelReply t = Except.ok reply)
    (hp : exceptIsOk (candidateParse (cleanResponse reply)) = false) :
    (processDocumentAction env st fd).1
      = Except.ok { id := fd.id
                    fileName := fd.fileName
                    fileType := fd.type
                    processingTime := env.procTime
                    textContent := t.data.take 1000
                    wordCount := wordCountJs t.data
                    pageCount := some (estimatePageCount t.data)
                    sentiment := JsVal.str ("Analysis completed")
                    topics := [JsVal.str ("Document analysis")]
                    summary := JsVal.str ("Document processed successfully")
                    entities := []
                    keyInsights := [JsVal.str ("Document contains valuable content")]
                    analyzedAt := env.now
                    confidence := JsVal.num (mkRat 7 10) }
    ∧ (mkRat 7 10 : ℚ) = 7 / 10 := by
  have hfb : parseAnalysis reply = fallbackAnalysis := by
    unfold parseAnalysis
    rcases hc : candidateParse (cleanResponse reply) with m | v
    · rfl
    · rw [hc] at hp
      simp [exceptIsOk] at hp
  have hbf : buildResult env fd t.toList reply
      = Except.ok { id := fd.id
                    fileName := fd.fileName
                    fileType := fd.type
                    processingTime := env.procTime
                    textContent := t.toList.take 1000
                    wordCount := wordCountJs t.toList
                    pageCount := some (estimatePageCount t.toList)
                    sentiment := JsVal.str ("Analysis completed")
                    topics := [JsVal.str ("Document analysis")]
                    summary := JsVal.str ("Document processed successfully")
                    entities := []
                    keyInsights := [JsVal.str ("Document contains valuable content")]
                    analyzedAt := env.now
                    confidence := JsVal.num (mkRat 7 10) } := by
    unfold buildResult
    rw [hfb]
    rfl
  constructor
  · unfold processDocumentAction
    rw [hx]
    dsimp only
    rw [if_neg (by simpa using ht), hm]
    dsimp only
    rw [hbf]
    rfl
  · norm_num [Rat.mkRat_eq_div]

def envC2w : Env :=
  { readPdf := fun _ => .error ("no pdf")
    readDocx := fun _ => .error ("no docx")
    readTxt := fun _ => .ok ("hello world")
    modelReply := fun _ => .ok ("I cannot analyze this.")
    unlinkFails := fun _ => false
    procTime := 0
    now := 0 }

def fdC2w : FileData :=
  { id := ("u1"), fileName := ("a.txt"), filePath := ("p1"), type := ("text/plain") }

/-- Witness for the amended C2 at the reply of the specification example. -/
theorem unparseable_reply_yields_fallback_witness :
    (processDocumentAction envC2w [] fdC2w).1
      = Except.ok { id := fdC2w.id
                    fileName := fdC2w.fileName
                    fileType := fdC2w.type
                    processingTime := envC2w.procTime
                    textContent := ("hello world").data.take 1000
                    wordCount := wordCountJs ("hello world").data
                    pageCount := some (estimatePageCount ("hello world").data)
                    sentiment := JsVal.str ("Analysis completed")
                    topics := [JsVal.str ("Document analysis")]
                    summary := JsVal.str ("Document processed successfully")
                    entities := []
                    keyInsights := [JsVal.str ("Document contains valuable content")]
                    analyzedAt := envC2w.now
                    confidence := JsVal.num (mkRat 7 10) } :=
  (unparseable_reply_yields_fallback envC2w [] fdC2w ("hello world")
    ("I cannot analyze this.") rfl (by decide) rfl (by decide)).1

def envC2x : Env :=
  { readPdf := fun _ => .error ("no pdf")
    readDocx := fun _ => .error ("no docx")
    readTxt := fun _ => .ok ("hello world")
    modelReply := fun _ => .ok ("42")
    unlinkFails := fun _ => false
    procTime := 0
    now := 0 }

/-- Counterexample to C2 as stated: the reply 42 has a cleaned text that
does not parse to a JSON object (it parses to a number), yet the returned
record carries the raw undefined sentiment, not the fallback record. -/
theorem nonobject_reply_breaks_claim :
    parsesToObject (cleanResponse ("42")) = false
    ∧ ((processDocumentAction envC2x [] fdC2w).1.map (fun a => a.sentiment))
        = Except.ok JsVal.undef
    ∧ JsVal.undef ≠ JsVal.str ("Analysis completed") := by
  refine ⟨by decide, rfl, ?_⟩
  intro h
  exact JsVal.noConfusion h

theorem dropWhile_append_of_all (p : Char → Bool) (a r : List Char)
    (h : ∀ c ∈ a, p c = true) : (a ++ r).dropWhile p = r.dropWhile p := by
  induction a with
  | nil => rfl
  | cons c cs ih =>
    have hc : p c = true := h c (by simp)
    simp only [List.cons_append, List.dropWhile_cons, hc, if_true]
    exact ih (fun d hd => h d (by simp [hd]))

theorem braceMatch_greedy (a mid b : List Char) (ha : '{' ∉ a) (hb : '}' ∉ b) :
    braceMatch (a ++ ('{' :: mid ++ ['}']) ++ b) = some ('{' :: mid ++ ['}']) := by
  have ha2 : ∀ c ∈ a, (!(c == '{')) = true := by
    intro c hc
    simp only [Bool.not_eq_true']
    exact beq_eq_false_iff_ne.mpr (fun he => ha (he ▸ hc))
  have hb2 : ∀ c ∈ b.reverse, (!(c == '}')) = true := by
    intro c hc
    simp only [Bool.not_eq_true']
    exact beq_eq_false_iff_ne.mpr (fun he => hb (he ▸ (List.mem_reverse.mp hc)))
  have h1 : (a ++ ('{' :: mid ++ ['}']) ++ b).dropWhile (fun c => !(c == '{'))
      = '{' :: (mid ++ ['}'] ++ b) := by
    rw [List.append_assoc]
    rw [dropWhile_append_of_all _ a _ ha2]
    simp [List.dropWhile_cons]
  have h2 : ('{' :: (mid ++ ['}'] ++ b)).reverse
      = b.reverse ++ ('}' :: (mid.reverse ++ ['{'])) := by
    simp
  have h3 : (b.reverse ++ ('}' :: (mid.reverse ++ ['{']))).dropWhile (fun c => !(c == '}'))
      = '}' :: (mid.reverse ++ ['{']) := by
    rw [dropWhile_append_of_all _ b.reverse _ hb2]
    simp [List.dropWhile_cons]
  unfold braceMatch
  rw [h1]
  dsimp only
  rw [h2, h3]
  simp

/-- C3 (amended): the parser strips fences and trims, then takes the greedy
regex span from the first opening brace to the last closing brace and
parses that as JSON; only when no such span exists is the whole cleaned
string parsed; on the fenced single-object reply of the specification the
embedded object is returned unchanged. -/
theorem parser_uses_greedy_brace_span :
    (∀ (a mid b : List Char), '{' ∉ a → '}' ∉ b →
        braceMatch (a ++ ('{' :: mid ++ ['}']) ++ b) = some ('{' :: mid ++ ['}']))
    ∧ (∀ l, braceMatch l = none → candidateParse l = jsonParse l)
    ∧ parseAnalysis ("```json\n\x7b\"sentiment\":\"Positive\",\"confidence\":0.85\x7d\n```")
        = JsVal.obj [(("sentiment"), JsVal.str ("Positive")),
                     (("confidence"), JsVal.num (mkRat 17 20))]
    ∧ (mkRat 17 20 : ℚ) = 85 / 100 := by
  refine ⟨braceMatch_greedy, ?_, rfl, by norm_num [Rat.mkRat_eq_div]⟩
  intro l h
  unfold candidateParse
  rw [h]

/-- Witness for the amended C3 at a concrete cleaned text with noise on
both sides of the brace span. -/
theorem parser_uses_greedy_brace_span_witness :
    braceMatch ((("x ").toList) ++ ('{' :: (("\"k\":1").toList) ++ ['}']) ++ ((" y").toList))
      = some ('{' :: (("\"k\":1").toList) ++ ['}']) :=
  parser_uses_greedy_brace_span.1 (("x ").toList) (("\"k\":1").toList) ((" y").toList)
    (by decide) (by decide)

/-- Counterexample to C3 as stated: on a cleaned text holding two JSON
objects, the first balanced-brace substring parses to the first object, but
the code's greedy span from first to last brace fails to parse, so the two
parses disagree. -/
theorem parser_not_first_balanced :
    exceptIsOk (candidateParse (cleanResponse ("\x7b\"a\":1\x7d x \x7b\"b\":2\x7d"))) = false
    ∧ specCandidateParse (cleanResponse ("\x7b\"a\":1\x7d x \x7b\"b\":2\x7d"))
        = Except.ok (JsVal.obj [(("a"), JsVal.num (mkRat 1 1))])
    ∧ candidateParse (cleanResponse ("\x7b\"a\":1\x7d x \x7b\"b\":2\x7d"))
        ≠ specCandidateParse (cleanResponse ("\x7b\"a\":1\x7d x \x7b\"b\":2\x7d")) := by
  refine ⟨by decide, rfl, ?_⟩
  intro h
  have h1 : exceptIsOk (candidateParse (cleanResponse ("\x7b\"a\":1\x7d x \x7b\"b\":2\x7d")))
      = false := by decide
  rw [h] at h1
  have h2 : exceptIsOk (specCandidateParse (cleanResponse ("\x7b\"a\":1\x7d x \x7b\"b\":2\x7d")))
      = true := rfl
  rw [h1] at h2
  exact Bool.noConfusion h2

/-- C4 (amended): for every declared type outside the four supported ones
the extractor fails; the unsupported-type error naming the type is raised
by the dispatch, but the function's own catch replaces it, so the error
surfaced to the caller is the fixed generic message, which carries no type
name. -/
theorem unsupported_type_fails_generic (env : Env) (p ty : String)
    (h1 : ty ≠ ("application/pdf"))
    (h2 : ty ≠ ("application/vnd.openxmlformats-officedocument.wordprocessingml.document"))
    (h3 : ty ≠ ("application/msword"))
    (h4 : ty ≠ ("text/plain")) :
    extractInner env p ty = Except.error ("Unsupported file type: " ++ ty)
    ∧ extractTextFromFile env p ty
        = Except.error ("Failed to extract text from document") := by
  have hi : extractInner env p ty = Except.error ("Unsupported file type: " ++ ty) := by
    unfold extractInner
    simp [beq_eq_false_iff_ne.mpr h1, beq_eq_false_iff_ne.mpr h2,
      beq_eq_false_iff_ne.mpr h3, beq_eq_false_iff_ne.mpr h4]
  refine ⟨hi, ?_⟩
  unfold extractTextFromFile
  rw [hi]

def envC4 : Env :=
  { readPdf := fun _ => .ok ("")
    readDocx := fun _ => .ok ("")
    readTxt := fun _ => .ok ("")
    modelReply := fun _ => .ok ("")
    unlinkFails := fun _ => false
    procTime := 0
    now := 0 }

/-- Counterexample to C4 as stated: for the declared type image/png the
surfaced error is the generic message, which does not contain the type. -/
theorem unsupported_type_error_unnamed :
    extractTextFromFile envC4 ("f.png") ("image/png")
      = Except.error ("Failed to extract text from document")
    ∧ containsSub (("image/png").toList)
        (("Failed to extract text from document").toList) = false :=
  ⟨rfl, by decide⟩

/-- Witness for the amended C4 at the type image/png. -/
theorem unsupported_type_fails_generic_witness :
    extractInner envC4 ("f.png") ("image/png")
      = Except.error ("Unsupported file type: " ++ ("image/png")) :=
  (unsupported_type_fails_generic envC4 ("f.png") ("image/png")
    (by decide) (by decide) (by decide) (by decide)).1

theorem uploadLoop_length (env : UploadEnv) (maxS : Nat) :
    ∀ (fs : List UploadFile) (k : Nat), (uploadLoop env maxS k fs).length = fs.length := by
  intro fs
  induction fs with
  | nil => intro k; rfl
  | cons f rest ih => intro k; simp [uploadLoop, ih]

theorem uploadLoop_getElem (env : UploadEnv) (maxS : Nat) :
    ∀ (fs : List UploadFile) (k i : Nat),
      (uploadLoop env maxS k fs)[i]?
        = (fs[i]?).map (fun f => processUpload env maxS (k + i) f) := by
  intro fs
  induction fs with
  | nil => intro k i; simp [uploadLoop]
  | cons f rest ih =>
    intro k i
    cases i with
    | zero => simp [uploadLoop]
    | succ j =>
      simp only [uploadLoop, List.getElem?_cons_succ]
      rw [ih (k + 1) j]
      have : k + 1 + j = k + (j + 1) := by omega
      rw [this]

theorem processUpload_failure_iff (env : UploadEnv) (maxS : Nat) (i : Nat)
    (f : UploadFile) :
    resultIsFailure (processUpload env maxS i f)
      = (decide (f.size > maxS) || !(allowedTypes.contains f.type) || !(env.writeOk i)) := by
  unfold processUpload resultIsFailure
  by_cases h1 : f.size > maxS
  · simp [h1]
  · by_cases h2 : f.type ∈ allowedTypes
    · by_cases h3 : env.writeOk i
      · simp [h1, h2, h3]
      · simp [h1, h2, h3]
    · simp [h1, h2]

/-- C7 (amended): the upload handler returns 500 only when reading or
preparing the request fails, 400 only on an empty file list, and otherwise
a success response with exactly one outcome per file, where the i-th
outcome is a per-file failure exactly when the i-th file is oversized, has
a type outside the allowed set, or its persist to temp storage fails. -/
theorem upload_perfile_and_overall_outcomes (env : UploadEnv) (maxS : Nat)
    (files : List UploadFile) (msg : String) :
    POST env maxS (Except.error msg) = UploadResponse.jsonError ("Upload failed") 500
    ∧ POST env maxS (Except.ok []) = UploadResponse.jsonError ("No files uploaded") 400
    ∧ (files ≠ [] →
        POST env maxS (Except.ok files)
          = UploadResponse.jsonSuccess (uploadLoop env maxS 0 files)
        ∧ (uploadLoop env maxS 0 files).length = files.length
        ∧ ∀ i f, files[i]? = some f →
            (uploadLoop env maxS 0 files)[i]? = some (processUpload env maxS i f)
            ∧ resultIsFailure (processUpload env maxS i f)
              = (decide (f.size > maxS) || !(allowedTypes.contains f.type)
                  || !(env.writeOk i))) := by
  refine ⟨rfl, rfl, fun hne => ⟨?_, uploadLoop_length env maxS files 0, ?_⟩⟩
  · unfold POST
    have hlen : (files.length == 0) = false := by
      cases files with
      | nil => exact absurd rfl hne
      | cons f fs => rfl
    dsimp only
    rw [hlen]
    rfl
  · intro i f hf
    refine ⟨?_, processUpload_failure_iff env maxS i f⟩
    rw [uploadLoop_getElem env maxS files 0 i, hf]
    simp

def envC7w : UploadEnv :=
  { uuid := fun _ => ("id0"), writeOk := fun _ => true, nowIso := ("t0") }

/-- Witness for the amended C7: a two-file batch with one oversized file
produces a success response with one outcome per file. -/
theorem upload_perfile_and_overall_outcomes_witness :
    (uploadLoop envC7w MAX_FILE_SIZE 0
        [{ name := ("big.pdf"), size := 20000000, type := ("application/pdf") },
         { name := ("ok.txt"), size := 5, type := ("text/plain") }]).length
      = ([{ name := ("big.pdf"), size := 20000000, type := ("application/pdf") },
          { name := ("ok.txt"), size := 5, type := ("text/plain") }] : List UploadFile).length :=
  ((upload_perfile_and_overall_outcomes envC7w MAX_FILE_SIZE
      [{ name := ("big.pdf"), size := 20000000, type := ("application/pdf") },
       { name := ("ok.txt"), size := 5, type := ("text/plain") }] ("m")).2.2
    (by simp)).2.1

def envC7x : UploadEnv :=
  { uuid := fun _ => ("id1"), writeOk := fun _ => false, nowIso := ("t1") }

/-- Counterexample to C7 as stated: a file within the size limit and of an
allowed type still gets a per-file failure record when persisting it to
temp storage fails, so size and type violations are not the only sources
of per-file failures. -/
theorem upload_failure_without_size_or_type :
    POST envC7x MAX_FILE_SIZE
        (Except.ok [{ name := ("a.pdf"), size := 5, type := ("application/pdf") }])
      = UploadResponse.jsonSuccess [UploadResult.failure ("a.pdf") ("Failed to save file")]
    ∧ decide ((5 : Nat) > MAX_FILE_SIZE) = false
    ∧ allowedTypes.contains ("application/pdf") = true :=
  ⟨rfl, by decide, by decide⟩

/-- C10: the size check runs before the type check, so a file that is both
oversized and of a disallowed type gets the size-limit failure message,
never the unsupported-type message. -/
theorem size_check_precedes_type_check (env : UploadEnv) (maxS : Nat)
    (files : List UploadFile) (i : Nat) (f : UploadFile)
    (hf : files[i]? = some f)
    (hs : f.size > maxS)
    (_ht : allowedTypes.contains f.type = false) :
    ∃ rs, POST env maxS (Except.ok files) = UploadResponse.jsonSuccess rs
      ∧ rs[i]? = some (UploadResult.failure f.name ("File size exceeds limit (10MB)")) := by
  have hne : files ≠ [] := by
    intro he
    rw [he] at hf
    simp at hf
  have hlen : (files.length == 0) = false := by
    cases files with
    | nil => exact absurd rfl hne
    | cons g gs => rfl
  refine ⟨uploadLoop env maxS 0 files, ?_, ?_⟩
  · unfold POST
    dsimp only
    rw [hlen]
    rfl
  · rw [uploadLoop_getElem env maxS files 0 i, hf]
    show some (processUpload env maxS (0 + i) f) = _
    rw [Nat.zero_add]
    unfold processUpload
    rw [if_pos hs]

def envC10w : UploadEnv :=
  { uuid := fun _ => ("id2"), writeOk := fun _ => true, nowIso := ("t2") }

/-- Witness for C10 at a concrete oversized file of a disallowed type. -/
theorem size_check_precedes_type_check_witness :
    ∃ rs, POST envC10w MAX_FILE_SIZE
        (Except.ok [{ name := ("big.png"), size := 20000000, type := ("image/png") }])
      = UploadResponse.jsonSuccess rs
      ∧ rs[0]? = some (UploadResult.failure ("big.png") ("File size exceeds limit (10MB)")) :=
  size_check_precedes_type_check envC10w MAX_FILE_SIZE
    [{ name := ("big.png"), size := 20000000, type := ("image/png") }] 0
    { name := ("big.png"), size := 20000000, type := ("image/png") }
    rfl (by decide) (by decide)

theorem sweepLoop_no_failure (uf : String → Bool) (now : Int) :
    ∀ (listing : List (String × Int)) (st : Storage),
      (∀ e ∈ listing, uf e.1 = false) →
      sweepLoop uf now listing st
        = Except.ok (st.filter (fun d =>
            !(((listing.filter (entryIsOld now)).map Prod.fst).contains d.1))) := by
  intro listing
  induction listing with
  | nil =>
    intro st h
    simp [sweepLoop, List.filter_true]
  | cons e rest ih =>
    intro st h
    have he : uf e.1 = false := h e (by simp)
    have hrest : ∀ d ∈ rest, uf d.1 = false := fun d hd => h d (by simp [hd])
    by_cases ho : entryIsOld now e
    · have hred : sweepLoop uf now (e :: rest) st
          = sweepLoop uf now rest (st.filter (fun d => !(d.1 == e.1))) := by
        simp only [sweepLoop]
        rw [if_pos ho, he]
        simp
      have hmap : (e :: rest).filter (entryIsOld now) = e :: rest.filter (entryIsOld now) := by
        simp [List.filter_cons, ho]
      rw [hred, ih _ hrest, List.filter_filter, hmap]
      congr 1
      apply List.filter_congr
      intro d _
      simp only [List.map_cons, List.contains_cons]
      by_cases hde : d.1 = e.1
      · simp [hde]
      · simp [beq_eq_false_iff_ne.mpr hde, beq_eq_false_iff_ne.mpr (Ne.symm hde)]
    · have hmap : (e :: rest).filter (entryIsOld now) = rest.filter (entryIsOld now) := by
        simp [List.filter_cons, ho]
      have hred : sweepLoop uf now (e :: rest) st = sweepLoop uf now rest st := by
        simp only [sweepLoop]
        rw [if_neg ho]
      rw [hred, ih _ hrest, hmap]

/-- C8: with the filesystem cooperating, one sweep deletes exactly the
temp-storage entries whose modification time lies more than 3600000 ms
before the sweep time and keeps every entry of age at most 3600000 ms; the
surrounding catch means the pass always returns instead of propagating a
sweep failure. -/
theorem cleanup_retains_young_deletes_old (uf : String → Bool) (now : Int)
    (st : Storage)
    (hok : ∀ e ∈ st, uf e.1 = false) (hnd : (st.map Prod.fst).Nodup) :
    cleanupUploadsFolder uf now st = st.filter (fun e => !(entryIsOld now e))
    ∧ (∀ e ∈ st, 3600000 < now - e.2 → e ∉ cleanupUploadsFolder uf now st)
    ∧ (∀ e ∈ st, now - e.2 ≤ 3600000 → e ∈ cleanupUploadsFolder uf now st) := by
  have hmain : cleanupUploadsFolder uf now st
      = st.filter (fun e => !(entryIsOld now e)) := by
    unfold cleanupUploadsFolder
    rw [sweepLoop_no_failure uf now st st hok]
    dsimp only
    apply List.filter_congr
    intro d hd
    by_cases hod : entryIsOld now d
    · have hmem : d.1 ∈ (st.filter (entryIsOld now)).map Prod.fst :=
        List.mem_map_of_mem Prod.fst (List.mem_filter.mpr ⟨hd, hod⟩)
      simp [hod, hmem]
    · have hnot : d.1 ∉ (st.filter (entryIsOld now)).map Prod.fst := by
        intro hmem
        obtain ⟨e, hef, heq⟩ := List.mem_map.mp hmem
        have he_st : e ∈ st := (List.mem_filter.mp hef).1
        have he_old : entryIsOld now e = true := (List.mem_filter.mp hef).2
        have hede : e = d := List.inj_on_of_nodup_map hnd he_st hd heq
        rw [hede] at he_old
        exact absurd he_old (by simpa using hod)
      simp [hod, hnot]
  refine ⟨hmain, ?_, ?_⟩
  · intro e he hage hmem
    rw [hmain] at hmem
    have := (List.mem_filter.mp hmem).2
    simp only [Bool.not_eq_true', entryIsOld] at this
    rw [decide_eq_false_iff_not] at this
    omega
  · intro e he hage
    rw [hmain]
    apply List.mem_filter.mpr
    refine ⟨he, ?_⟩
    simp only [Bool.not_eq_true', entryIsOld]
    rw [decide_eq_false_iff_not]
    omega

/-- Witness for C8 at a sweep time of 10000000 over one stale and one
fresh entry. -/
theorem cleanup_retains_young_deletes_old_witness :
    cleanupUploadsFolder (fun _ => false) 10000000 [(("a"), 0), (("b"), 9999999)]
      = ([(("a"), 0), (("b"), 9999999)] : Storage).filter
          (fun e => !(entryIsOld 10000000 e)) :=
  (cleanup_retains_young_deletes_old (fun _ => false) 10000000
    [(("a"), 0), (("b"), 9999999)] (by intro e he; rfl) (by decide)).1

theorem wsSplit_ne_nil : ∀ l : List Char, wsSplit l ≠ [] := by
  intro l
  cases l with
  | nil => simp [wsSplit]
  | cons c r =>
    simp only [wsSplit]
    cases h : wsSplit r with
    | nil => simp
    | cons t ts =>
      by_cases hc : jsWs c
      · simp [hc]
      · simp [hc]

theorem wsSplit_cons (c : Char) (r : List Char) :
    wsSplit (c :: r)
      = if jsWs c then [] :: wsSplit r
        else (c :: (wsSplit r).headI) :: (wsSplit r).tail := by
  cases h : wsSplit r with
  | nil => exact absurd h (wsSplit_ne_nil r)
  | cons t ts => simp [wsSplit, h]

theorem wsSplit_eta (l : List Char) :
    (wsSplit l).headI :: (wsSplit l).tail = wsSplit l := by
  cases h : wsSplit l with
  | nil => exact absurd h (wsSplit_ne_nil l)
  | cons t ts => simp

theorem splitWsAux_filter : ∀ (l acc : List Char),
    (splitWsAux l acc).filter (fun t => !t.isEmpty)
      = ((acc.reverse ++ (wsSplit l).headI) :: (wsSplit l).tail).filter
          (fun t => !t.isEmpty) := by
  intro l
  induction l with
  | nil =>
    intro acc
    simp [splitWsAux, wsSplit]
  | cons c r ih =>
    intro acc
    by_cases hc : jsWs c
    · cases r with
      | nil =>
        simp [splitWsAux, hc, wsSplit_cons, wsSplit, List.filter_cons]
      | cons d r2 =>
        by_cases hd : jsWs d
        · rw [show splitWsAux (c :: d :: r2) acc = splitWsAux (d :: r2) acc from by
            simp [splitWsAux, hc, hd]]
          rw [ih acc]
          rw [wsSplit_cons c (d :: r2)]
          simp only [hc, if_true]
          rw [wsSplit_cons d r2]
          simp only [hd, if_true]
          simp [List.filter_cons]
        · rw [show splitWsAux (c :: d :: r2) acc
              = acc.reverse :: splitWsAux (d :: r2) [] from by
            simp [splitWsAux, hc, hd]]
          rw [wsSplit_cons c (d :: r2)]
          simp only [hc, if_true]
          rw [List.filter_cons, List.filter_cons]
          rw [ih []]
          simp only [List.reverse_nil, List.nil_append, List.headI_cons, List.tail_cons,
            List.append_nil]
          rw [wsSplit_eta (d :: r2)]
    · rw [show splitWsAux (c :: r) acc = splitWsAux r (c :: acc) from by
        simp [splitWsAux, hc]]
      rw [ih (c :: acc)]
      rw [wsSplit_cons c r]
      simp only [hc, if_false]
      simp [List.filter_cons]

theorem wordCountJs_eq_tokens (l : List Char) : wordCountJs l = (wsTokens l).length := by
  unfold wordCountJs wsTokens
  rw [splitWsAux_filter l []]
  simp only [List.reverse_nil, List.nil_append]
  rw [wsSplit_eta l]

/-- Text consisting of a given number of single-letter words, each followed
by one space. -/
def repeatWords : Nat → List Char
  | 0 => []
  | n + 1 => 'w' :: ' ' :: repeatWords n

theorem wsTokens_repeatWords : ∀ n, (wsTokens (repeatWords n)).length = n := by
  intro n
  induction n with
  | zero => rfl
  | succ k ih =>
    have h1 : wsSplit (' ' :: repeatWords k) = [] :: wsSplit (repeatWords k) := by
      rw [wsSplit_cons]
      simp [jsWs]
    have h2 : wsSplit ('w' :: ' ' :: repeatWords k)
        = ['w'] :: wsSplit (repeatWords k) := by
      rw [wsSplit_cons]
      simp [jsWs, h1]
    show (wsTokens ('w' :: ' ' :: repeatWords k)).length = k + 1
    unfold wsTokens at ih ⊢
    rw [h2, List.filter_cons]
    simp [ih]

/-- C9: the reported word count equals the number of non-empty
whitespace-delimited tokens of the full original text (3 for the
specification example), the estimated page count is that count divided by
250 rounded up (2 for a 500-word text), and every successful per-file
record carries exactly these two values computed from the full extracted
text. -/
theorem wordcount_tokens_and_pages :
    (∀ l, wordCountJs l = (wsTokens l).length)
    ∧ (wsTokens (("one two   three").toList)).length = 3
    ∧ (∀ l, estimatePageCount l = ((wsTokens l).length + 249) / 250)
    ∧ (wsTokens (repeatWords 500)).length = 500
    ∧ estimatePageCount (repeatWords 500) = 2
    ∧ (∀ (env : Env) (st : Storage) (fd : FileData) (a : DocumentAnalysis),
        (processDocumentAction env st fd).1 = Except.ok a →
        ∃ t, extractTextFromFile env fd.filePath fd.type = Except.ok t
          ∧ a.wordCount = (wsTokens t.toList).length
          ∧ a.pageCount = some (((wsTokens t.toList).length + 249) / 250)) := by
  have hpages : ∀ l, estimatePageCount l = ((wsTokens l).length + 249) / 250 := by
    intro l
    unfold estimatePageCount
    rw [wordCountJs_eq_tokens]
  refine ⟨wordCountJs_eq_tokens, by decide, hpages, wsTokens_repeatWords 500, ?_, ?_⟩
  · rw [hpages, wsTokens_repeatWords 500]
  · intro env st fd a h
    obtain ⟨t, reply, hx, hm, hb⟩ := pda_ok_record env st fd a h
    obtain ⟨_, _, _, hwcf, hpc⟩ := buildResult_ok_fields env fd t.toList reply a hb
    exact ⟨t, hx, by rw [hwcf, wordCountJs_eq_tokens],
      by rw [hpc, hpages]⟩

def envC9w : Env :=
  { readPdf := fun _ => .error ("no pdf")
    readDocx := fun _ => .error ("no docx")
    readTxt := fun _ => .ok ("one two   three")
    modelReply := fun _ => .ok ("\x7b\x7d")
    unlinkFails := fun _ => false
    procTime := 0
    now := 0 }

def fdC9w : FileData :=
  { id := ("w1"), fileName := ("b.txt"), filePath := ("p9"), type := ("text/plain") }

/-- Default record used only to project a known-successful result. -/
def defaultDA : DocumentAnalysis :=
  { id := ("")
    fileName := ("")
    fileType := ("")
    processingTime := 0
    textContent := []
    wordCount := 0
    pageCount := none
    sentiment := JsVal.undef
    topics := []
    summary := JsVal.undef
    entities := []
    keyInsights := []
    analyzedAt := 0
    confidence := JsVal.undef }

/-- Project the record out of a result known to be a success. -/
def okOrDefault (e : Except String DocumentAnalysis) : DocumentAnalysis :=
  match e with
  | .ok a => a
  | .error _ => defaultDA

/-- Witness for C9 at a concrete three-word document. -/
theorem wordcount_tokens_and_pages_witness :
    ∃ t, extractTextFromFile envC9w fdC9w.filePath fdC9w.type = Except.ok t
      ∧ (okOrDefault (processDocumentAction envC9w [] fdC9w).1).wordCount
          = (wsTokens t.toList).length
      ∧ (okOrDefault (processDocumentAction envC9w [] fdC9w).1).pageCount
          = some (((wsTokens t.toList).length + 249) / 250) :=
  wordcount_tokens_and_pages.2.2.2.2.2 envC9w [] fdC9w
    (okOrDefault (processDocumentAction envC9w [] fdC9w).1) (by rfl)
